import Mathlib

/-!
Verification of the Trust Bundle Reconciliation Engine and the
cluster-operator reconciler of the cluster-cloud-controller-manager-operator
repository, as a shallow embedding in Lean 4.

Part A embeds the trust-bundle engine (CertificateCodec, SourceAccessor,
BundleMerger, OutputReconciler).  The engine implementation file itself is
not part of the provided sources (only its behavioural test suite is), so
those definitions are modelled from the specification, as marked in their
doc comments.

Part B embeds pkg/controllers/clusteroperator_controller.go
(CloudOperatorReconciler.Reconcile, sync, applyResources) directly from the
source, with the external cluster turned into an explicit environment of
call results and the side effects recorded as an action trace.
-/

/-- Modelled from the spec: one item of a PEM-encoded byte blob.  The spec
treats the blob structurally: a blob decomposes into certificate blocks
(each carrying an issuer organization and a body) and possibly garbage
text that is not a structurally valid certificate block. -/
inductive PemItem where
  | cert (issuerOrg : String) (body : String)
  | junk (text : String)
deriving DecidableEq, Repr

/-- Modelled from the spec: a byte blob, viewed through its PEM block
structure.  Raw-byte equality of two blobs is equality of this list. -/
abbrev Blob := List PemItem

/-- Modelled from the spec: an opaque parsed certificate with an
issuer-organization field and a raw-encoding field (spec section 3). -/
structure CertificateRecord where
  issuerOrg : String
  rawEncoding : String
deriving DecidableEq, Repr

/-- Modelled from the spec: decoding of a single PEM item; only a
structurally valid certificate block decodes to a record. -/
def decodeItem : PemItem → Option CertificateRecord
  | PemItem.cert org body => some ⟨org, body⟩
  | PemItem.junk _ => none

/-- Modelled from the spec: decode every item of a blob, failing if any
item is not a valid certificate block (partial success is not supported). -/
def decodeItems : List PemItem → Option (List CertificateRecord)
  | [] => some []
  | item :: rest =>
    match decodeItem item with
    | none => none
    | some r =>
      match decodeItems rest with
      | none => none
      | some rs => some (r :: rs)

/-- Modelled from the spec: the missing util.CertificateData /
CertificateCodec.parse.  A blob is either fully decodable into at least one
certificate record or rejected outright with the parse error
"failed to parse certificate PEM"; zero certificates is the same error. -/
def certificateData (b : Blob) : Except String (List CertificateRecord) :=
  match decodeItems b with
  | none => Except.error "failed to parse certificate PEM"
  | some [] => Except.error "failed to parse certificate PEM"
  | some recs => Except.ok recs

/-- Modelled from the spec: serialization of a single certificate record
back to a PEM certificate block. -/
def serializeRecord (r : CertificateRecord) : PemItem :=
  PemItem.cert r.issuerOrg r.rawEncoding

/-- Modelled from the spec: CertificateCodec.serialize, a concatenated
PEM-style byte sequence for an ordered sequence of records. -/
def serializeBundle (recs : List CertificateRecord) : Blob :=
  recs.map serializeRecord

/-- Modelled from the spec: the state a trust source resolves to at
evaluation time (spec section 3): Valid with its raw bytes, Invalid with a
reason, or Absent. -/
inductive SourceState where
  | valid (bytes : Blob)
  | invalid (reason : String)
  | absent
deriving DecidableEq, Repr

/-- Modelled from the spec: the raw byte content a source contributes for
comparison purposes; a non-Valid source reads as empty content. -/
def sourceBytes : SourceState → Blob
  | SourceState.valid b => b
  | SourceState.invalid _ => []
  | SourceState.absent => []

/-- Modelled from the spec: classify a present key value: Valid if it
parses, Invalid (with the parse reason) otherwise. -/
def classifyBundleValue (b : Blob) : SourceState :=
  match certificateData b with
  | Except.ok _ => SourceState.valid b
  | Except.error e => SourceState.invalid e

/-- Modelled from the spec: a key/value map object (a ConfigMap) holding
string keys mapped to byte blobs. -/
structure ConfigMap where
  name : String
  data : List (String × Blob)
deriving DecidableEq, Repr

/-- Modelled from the spec: look up a key in a ConfigMap. -/
def lookupKey (cm : ConfigMap) (k : String) : Option Blob :=
  (cm.data.find? fun p => p.1 == k).map Prod.snd

/-- Modelled from the spec: the fixed well-known key under which the user
trust bundle is stored in its ConfigMap. -/
def trustedCABundleConfigMapKey : String := "ca-bundle.crt"

/-- Modelled from the spec: the fixed well-known key under which the
provider (cloud-config) CA bundle is stored. -/
def cloudProviderConfigCABundleConfigMapKey : String := "ca-bundle.pem"

/-- Modelled from the spec: the user SourceAccessor.  Resolves the proxy
TrustedCA pointer to a named ConfigMap and looks up the fixed key.  Pointer
unset, referenced object nonexistent, or key missing yields Absent; a
present value that fails parsing yields Invalid. -/
def getUserCABundle (proxyTrustedCAName : Option String)
    (userConfigMaps : List ConfigMap) : SourceState :=
  match proxyTrustedCAName with
  | none => SourceState.absent
  | some n =>
    match userConfigMaps.find? (fun cm => cm.name == n) with
    | none => SourceState.absent
    | some cm =>
      match lookupKey cm trustedCABundleConfigMapKey with
      | none => SourceState.absent
      | some b => classifyBundleValue b

/-- Modelled from the spec: the provider SourceAccessor.  Reads the fixed
key from the synced cloud-config ConfigMap; if the object holding the map
does not exist at all the state is Absent. -/
def getCloudConfigCABundle (cloudConfig : Option ConfigMap) : SourceState :=
  match cloudConfig with
  | none => SourceState.absent
  | some cm =>
    match lookupKey cm cloudProviderConfigCABundleConfigMapKey with
    | none => SourceState.absent
    | some b => classifyBundleValue b

/-- Modelled from the spec: TrustedCABundleReconciler.getSystemTrustBundle.
Reads the fixed system file: a read failure surfaces the underlying I/O
error verbatim; content that fails parsing yields the parse error
"failed to parse certificate PEM"; otherwise the raw bytes are returned. -/
def getSystemTrustBundle (fileRead : Except String Blob) : Except String Blob :=
  match fileRead with
  | Except.error msg => Except.error msg
  | Except.ok b =>
    match certificateData b with
    | Except.ok _ => Except.ok b
    | Except.error _ => Except.error "failed to parse certificate PEM"

/-- Modelled from the spec: the BundleMerger, a deterministic pure
function.  Output order is provider certificates (only if Valid and its
raw bytes differ from the user source byte content), then user
certificates (only if Valid), then the system certificates. -/
def mergeCABundles (system : Blob) (user provider : SourceState) : Blob :=
  (match provider with
   | SourceState.valid pb => if pb = sourceBytes user then [] else pb
   | SourceState.invalid _ => []
   | SourceState.absent => []) ++
  (match user with
   | SourceState.valid ub => ub
   | SourceState.invalid _ => []
   | SourceState.absent => []) ++
  system

/-- Modelled from the spec: the full observable input of one
reconciliation cycle: the system file read result, the proxy TrustedCA
pointer, the user-namespace ConfigMaps, the synced cloud-config ConfigMap,
and the current output artifact content (none when the artifact is
absent). -/
structure EngineState where
  systemFile : Except String Blob
  proxyTrustedCAName : Option String
  userConfigMaps : List ConfigMap
  cloudConfig : Option ConfigMap
  artifact : Option Blob
deriving Repr

/-- Modelled from the spec: the desired merged bundle for a state: fatal
error if the system source fails, otherwise the merge of the three source
readings. -/
def desiredMergedBundle (s : EngineState) : Except String Blob :=
  match getSystemTrustBundle s.systemFile with
  | Except.error e => Except.error e
  | Except.ok sys =>
    Except.ok (mergeCABundles sys
      (getUserCABundle s.proxyTrustedCAName s.userConfigMaps)
      (getCloudConfigCABundle s.cloudConfig))

/-- Modelled from the spec: one OutputReconciler cycle.  Reads the sources,
computes the merge, compares it against the artifact content (a missing
artifact reads as empty content); if equal, no write; otherwise upsert.
Returns the resulting artifact content and whether a write occurred. -/
def reconcileCycle (s : EngineState) : Except String (Option Blob × Bool) :=
  match desiredMergedBundle s with
  | Except.error e => Except.error e
  | Except.ok merged =>
    if s.artifact.getD [] = merged then Except.ok (s.artifact, false)
    else Except.ok (some merged, true)

/-- Modelled from the spec: the state after a cycle: a failed cycle leaves
the artifact untouched; a successful one installs the cycle result. -/
def applyCycle (s : EngineState) : EngineState :=
  match reconcileCycle s with
  | Except.error _ => s
  | Except.ok (a, _) => { s with artifact := a }

/-- Fixture blob mirroring the test system bundle: two GlobalSign
certificates. -/
def systemBlob : Blob :=
  [PemItem.cert "GlobalSign" "gsBodyOne", PemItem.cert "GlobalSign" "gsBodyTwo"]

/-- Fixture blob mirroring the Amazon user bundle fixture: one
certificate. -/
def amazonBlob : Blob := [PemItem.cert "Amazon" "amazonBody"]

/-- Fixture blob mirroring the Microsoft bundle fixture: one
certificate. -/
def msBlob : Blob := [PemItem.cert "Microsoft Corporation" "msBody"]

/-- Result of a client Get call in clusteroperator_controller.go: success,
IsNotFound, or another error (pkg/controllers/clusteroperator_controller.go). -/
inductive GetResult (A : Type) where
  | ok (v : A)
  | notFound
  | err (msg : String)
deriving DecidableEq, Repr

/-- One side effect performed by the cluster-operator reconciler: a
successful server-side apply patch of the resource at a given list index, a
successful watch establishment for it, or a successful status update. -/
inductive OpAction where
  | patched (idx : Nat)
  | watched (idx : Nat)
  | statusAvailable
  | statusDegraded
  | statusProgressing
deriving DecidableEq, Repr

/-- Environment of one resource processed by applyResources: the outcome
of the pre-apply Get (with the existing object generation on success), the
generation carried by the desired template object, the outcome of the
server-side apply Patch (with the resulting generation), and the outcome
of establishing the watch
(pkg/controllers/clusteroperator_controller.go, applyResources). -/
structure ResourceEnv where
  get : GetResult Nat
  desiredGen : Nat
  patch : Except String Nat
  watch : Except String Unit
deriving Repr

/-- The pre-apply Get step of applyResources: a non-IsNotFound error aborts;
IsNotFound marks the operator as progressing (updated = true) and leaves
resourceExisting at the template object (so its generation is the desired
template generation); success yields the existing object generation. -/
def getOutcome (r : ResourceEnv) (updated : Bool) : Except String (Bool × Nat) :=
  match r.get with
  | GetResult.err m => Except.error m
  | GetResult.notFound => Except.ok (true, r.desiredGen)
  | GetResult.ok g => Except.ok (updated, g)

/-- The loop body of CloudOperatorReconciler.applyResources, with the index
of the current resource and the updated flag threaded through.  Mirrors the
source: Get (non-IsNotFound errors return (false, err)); Patch with
server-side apply (errors return (false, err)); updated is set when the
existing generation differs from the patched generation; Watch (errors
return (false, err)).  The action trace records each successful patch and
watch. -/
def applyGo (i : Nat) (updated : Bool) :
    List ResourceEnv → (Bool × Option String) × List OpAction
  | [] => ((updated, none), [])
  | r :: rest =>
    match getOutcome r updated with
    | Except.error m => ((false, some m), [])
    | Except.ok (updated1, existingGen) =>
      match r.patch with
      | Except.error m => ((false, some m), [])
      | Except.ok newGen =>
        let updated2 := updated1 || decide (existingGen ≠ newGen)
        match r.watch with
        | Except.error m => ((false, some m), [OpAction.patched i])
        | Except.ok _ =>
          let res := applyGo (i + 1) updated2 rest
          (res.1, OpAction.patched i :: OpAction.watched i :: res.2)

/-- CloudOperatorReconciler.applyResources: processes the resource list in
order starting from an updated flag of false
(pkg/controllers/clusteroperator_controller.go lines 177-217). -/
def applyResources (rs : List ResourceEnv) :
    (Bool × Option String) × List OpAction :=
  applyGo 0 false rs

/-- Environment of one CloudOperatorReconciler.Reconcile call: results of
the Get calls on the FeatureGate "cluster", the Infrastructure and the
Proxy objects, of IsCloudProviderExternal, of ComposeConfig, the per
resource environments for applyResources, and the outcomes of the three
status updates. -/
structure ReconcileEnv where
  featureGate : GetResult Unit
  infra : GetResult Unit
  proxy : GetResult Unit
  isExternal : Except String Bool
  composeConfig : Except String Unit
  resources : List ResourceEnv
  setAvailable : Except String Unit
  setDegraded : Except String Unit
  setProgressing : Except String Unit
deriving Repr

/-- The skip path of Reconcile: setStatusAvailable then return success; a
failing status update is returned as the error. -/
def availablePath (env : ReconcileEnv) : Option String × List OpAction :=
  match env.setAvailable with
  | Except.ok _ => (none, [OpAction.statusAvailable])
  | Except.error e => (some e, [])

/-- The failure path of Reconcile: setStatusDegraded then return the
original error; if the status update itself fails, the wrapped
"error syncing ClusterOperatorStatus" error is returned instead.  The
actions already performed before the failure are kept in the trace. -/
def degradedPath (env : ReconcileEnv) (msg : String) (acts : List OpAction) :
    Option String × List OpAction :=
  match env.setDegraded with
  | Except.ok _ => (some msg, acts ++ [OpAction.statusDegraded])
  | Except.error e =>
    (some ("error syncing ClusterOperatorStatus: " ++ e), acts)

/-- CloudOperatorReconciler.sync: applyResources, propagating its error;
when some resource was created or updated, setStatusProgressing
(pkg/controllers/clusteroperator_controller.go lines 159-173). -/
def syncOperands (env : ReconcileEnv) : Option String × List OpAction :=
  match applyResources env.resources with
  | ((_, some e), acts) => (some e, acts)
  | ((updated, none), acts) =>
    if updated then
      match env.setProgressing with
      | Except.ok _ => (none, acts ++ [OpAction.statusProgressing])
      | Except.error e => (some e, acts)
    else (none, acts)

/-- CloudOperatorReconciler.Reconcile
(pkg/controllers/clusteroperator_controller.go lines 60-157): FeatureGate
"cluster" missing skips with Available; FeatureGate error degrades;
Infrastructure missing skips with Available; Infrastructure error degrades;
a non-IsNotFound Proxy error degrades; IsCloudProviderExternal error
degrades, and external = false skips with Available; ComposeConfig error
degrades; a sync error degrades; otherwise setStatusAvailable and return. -/
def Reconcile (env : ReconcileEnv) : Option String × List OpAction :=
  match env.featureGate with
  | GetResult.notFound => availablePath env
  | GetResult.err msg => degradedPath env msg []
  | GetResult.ok _ =>
    match env.infra with
    | GetResult.notFound => availablePath env
    | GetResult.err msg => degradedPath env msg []
    | GetResult.ok _ =>
      match env.proxy with
      | GetResult.err msg => degradedPath env msg []
      | _ =>
        match env.isExternal with
        | Except.error msg => degradedPath env msg []
        | Except.ok false => availablePath env
        | Except.ok true =>
          match env.composeConfig with
          | Except.error msg => degradedPath env msg []
          | Except.ok _ =>
            match syncOperands env with
            | (some e, acts) => degradedPath env e acts
            | (none, acts) =>
              match env.setAvailable with
              | Except.ok _ => (none, acts ++ [OpAction.statusAvailable])
              | Except.error e => (some e, acts)

/-- The first failing step of one resource of applyResources, in the order
the source checks them: a non-IsNotFound Get error, then a Patch error,
then a Watch error. -/
def resourceFailure (r : ResourceEnv) : Option String :=
  match r.get with
  | GetResult.err m => some m
  | _ =>
    match r.patch with
    | Except.error m => some m
    | Except.ok _ =>
      match r.watch with
      | Except.error m => some m
      | Except.ok _ => none

/-- Whether one successfully processed resource marks the operator as
progressing: its pre-apply Get reported IsNotFound (newly created), or its
generation changed across the patch. -/
def resourceProgress (r : ResourceEnv) : Bool :=
  match r.get, r.patch with
  | GetResult.notFound, _ => true
  | GetResult.ok g, Except.ok ng => decide (g ≠ ng)
  | _, _ => false

/-- Fixture reconciler state mirroring the test with a broken system
bundle path: the system file read fails with the I/O error the test
expects verbatim. -/
def brokenSystemState : EngineState :=
  { systemFile := Except.error "open /broken/ca/path.pem: no such file or directory",
    proxyTrustedCAName := none,
    userConfigMaps := [],
    cloudConfig := none,
    artifact := some systemBlob }

/-- Fixture reconciler state mirroring the test setup: valid system
bundle, proxy pointing at the user-ca-bundle ConfigMap holding the Amazon
bundle, no synced cloud-config. -/
def testClusterState : EngineState :=
  { systemFile := Except.ok systemBlob,
    proxyTrustedCAName := some "user-ca-bundle",
    userConfigMaps := [⟨"user-ca-bundle", [(trustedCABundleConfigMapKey, amazonBlob)]⟩],
    cloudConfig := none,
    artifact := none }

/-- Fixture reconciler state with only the system source present. -/
def steadySystemState : EngineState :=
  { systemFile := Except.ok systemBlob,
    proxyTrustedCAName := none,
    userConfigMaps := [],
    cloudConfig := none,
    artifact := none }

/-- Environment fixture in which the FeatureGate "cluster" does not
exist. -/
def skipEnv : ReconcileEnv :=
  { featureGate := GetResult.notFound,
    infra := GetResult.ok (),
    proxy := GetResult.ok (),
    isExternal := Except.ok true,
    composeConfig := Except.ok (),
    resources := [],
    setAvailable := Except.ok (),
    setDegraded := Except.ok (),
    setProgressing := Except.ok () }

/-- Resource-list fixture: the first resource applies cleanly, the second
fails its server-side apply patch, the third would progress but is never
reached. -/
def failingResources : List ResourceEnv :=
  [{ get := GetResult.ok 1, desiredGen := 0,
     patch := Except.ok 1, watch := Except.ok () },
   { get := GetResult.notFound, desiredGen := 0,
     patch := Except.error "apply failed", watch := Except.ok () },
   { get := GetResult.ok 5, desiredGen := 0,
     patch := Except.ok 6, watch := Except.ok () }]

theorem decodeItems_append (a : List PemItem) :
    ∀ b ra rb, decodeItems a = some ra → decodeItems b = some rb →
      decodeItems (a ++ b) = some (ra ++ rb) := by
  induction a with
  | nil =>
    intro b ra rb ha hb
    simp [decodeItems] at ha
    subst ha
    simpa using hb
  | cons item rest ih =>
    intro b ra rb ha hb
    cases hd : decodeItem item with
    | none => simp [decodeItems, hd] at ha
    | some r =>
      cases hrest : decodeItems rest with
      | none => simp [decodeItems, hd, hrest] at ha
      | some rs =>
        simp [decodeItems, hd, hrest] at ha
        subst ha
        simp [decodeItems, hd, ih b rs rb hrest hb]

theorem certificateData_ok_iff (b : Blob) (recs : List CertificateRecord) :
    certificateData b = Except.ok recs ↔ decodeItems b = some recs ∧ recs ≠ [] := by
  unfold certificateData
  cases h : decodeItems b with
  | none => simp
  | some rs =>
    cases rs with
    | nil => simp
    | cons r rest =>
      constructor
      · intro he
        simp at he
        subst he
        simp
      · rintro ⟨hs, _⟩
        simp at hs
        subst hs
        simp

theorem decodeItems_serialize (recs : List CertificateRecord) :
    decodeItems (serializeBundle recs) = some recs := by
  induction recs with
  | nil => rfl
  | cons r rs ih =>
    simp [serializeBundle, decodeItems, decodeItem, serializeRecord] at ih ⊢
    simp [ih]

/-- Claim C8: for every blob b that certificateData accepts, re-parsing
serializeBundle (certificateData b) succeeds and yields the same sequence
of certificate records in the same order. -/
theorem serialize_parse_roundtrip (b : Blob) (recs : List CertificateRecord)
    (h : certificateData b = Except.ok recs) :
    certificateData (serializeBundle recs) = Except.ok recs := by
  rcases (certificateData_ok_iff b recs).1 h with ⟨_, hne⟩
  exact (certificateData_ok_iff _ recs).2 ⟨decodeItems_serialize recs, hne⟩

/-- Witness for claim C8 at the Amazon fixture blob. -/
theorem serialize_parse_roundtrip_witness :
    certificateData (serializeBundle [⟨"Amazon", "amazonBody"⟩])
      = Except.ok [⟨"Amazon", "amazonBody"⟩] :=
  serialize_parse_roundtrip amazonBlob [⟨"Amazon", "amazonBody"⟩] rfl

/-- Claim C2: when the provider source and the user source are both Valid
with byte-identical raw content, the provider contributes nothing: the
merge equals the merge of the user and system sources alone. -/
theorem provider_identical_bytes_contributes_nothing (sys b : Blob) :
    mergeCABundles sys (SourceState.valid b) (SourceState.valid b)
      = mergeCABundles sys (SourceState.valid b) SourceState.absent := by
  simp [mergeCABundles, sourceBytes]

/-- Claim C1: for valid system, user and provider readings with provider
raw bytes different from user raw bytes, the merged bundle parses to
exactly the provider records, then the user records, then the system
records. -/
theorem merge_precedence (sys ub pb : Blob)
    (sysRecs uRecs pRecs : List CertificateRecord)
    (hs : certificateData sys = Except.ok sysRecs)
    (hu : certificateData ub = Except.ok uRecs)
    (hp : certificateData pb = Except.ok pRecs)
    (hne : pb ≠ ub) :
    certificateData
        (mergeCABundles sys (SourceState.valid ub) (SourceState.valid pb))
      = Except.ok (pRecs ++ uRecs ++ sysRecs) := by
  rcases (certificateData_ok_iff _ _).1 hs with ⟨hsd, hsne⟩
  rcases (certificateData_ok_iff _ _).1 hu with ⟨hud, _⟩
  rcases (certificateData_ok_iff _ _).1 hp with ⟨hpd, _⟩
  have hm : mergeCABundles sys (SourceState.valid ub) (SourceState.valid pb)
      = (pb ++ ub) ++ sys := by
    simp [mergeCABundles, sourceBytes, hne]
  rw [hm]
  refine (certificateData_ok_iff _ _).2 ⟨?_, ?_⟩
  · have h1 := decodeItems_append pb ub pRecs uRecs hpd hud
    have h2 := decodeItems_append (pb ++ ub) sys (pRecs ++ uRecs) sysRecs h1 hsd
    simpa using h2
  · simp [hsne]

/-- Witness for claim C1: provider = Microsoft fixture, user = Amazon
fixture, system = two GlobalSign fixture certificates; the merge parses to
four records whose first issuer is "Microsoft Corporation". -/
theorem merge_precedence_witness :
    msBlob ≠ amazonBlob ∧
    certificateData
        (mergeCABundles systemBlob (SourceState.valid amazonBlob)
          (SourceState.valid msBlob))
      = Except.ok [⟨"Microsoft Corporation", "msBody"⟩, ⟨"Amazon", "amazonBody"⟩,
          ⟨"GlobalSign", "gsBodyOne"⟩, ⟨"GlobalSign", "gsBodyTwo"⟩] :=
  ⟨by decide,
   merge_precedence systemBlob amazonBlob msBlob
     [⟨"GlobalSign", "gsBodyOne"⟩, ⟨"GlobalSign", "gsBodyTwo"⟩]
     [⟨"Amazon", "amazonBody"⟩] [⟨"Microsoft Corporation", "msBody"⟩]
     rfl rfl rfl (by decide)⟩

/-- Claim C5: an Absent user source (pointer unset, referenced ConfigMap
nonexistent, or key missing) and an Invalid user source (value fails
parsing) both contribute nothing, raise no error, and are
indistinguishable in the merged output; with provider also Absent the
output is the system certificates alone (two records, first issuer
"GlobalSign" on the fixture). -/
theorem user_source_degrades_gracefully :
    (∀ cms, getUserCABundle none cms = SourceState.absent) ∧
    (∀ n cms, (cms.find? fun cm => cm.name == n) = none →
       getUserCABundle (some n) cms = SourceState.absent) ∧
    (∀ n cms cm, (cms.find? fun cm => cm.name == n) = some cm →
       lookupKey cm trustedCABundleConfigMapKey = none →
       getUserCABundle (some n) cms = SourceState.absent) ∧
    (∀ b e, certificateData b = Except.error e →
       classifyBundleValue b = SourceState.invalid e) ∧
    (∀ sys provider reason,
       mergeCABundles sys (SourceState.invalid reason) provider
         = mergeCABundles sys SourceState.absent provider) ∧
    (∀ s sys, getSystemTrustBundle s.systemFile = Except.ok sys →
       ∃ out, reconcileCycle s = Except.ok out) ∧
    certificateData
        (mergeCABundles systemBlob SourceState.absent SourceState.absent)
      = Except.ok [⟨"GlobalSign", "gsBodyOne"⟩, ⟨"GlobalSign", "gsBodyTwo"⟩] := by
  refine ⟨?_, ?_, ?_, ?_, ?_, ?_, ?_⟩
  · intro cms; rfl
  · intro n cms hf; simp [getUserCABundle, hf]
  · intro n cms cm hf hk; simp [getUserCABundle, hf, hk]
  · intro b e hcd; simp [classifyBundleValue, hcd]
  · intro sys provider reason
    simp [mergeCABundles, sourceBytes]
  · intro s sys h
    by_cases hc : s.artifact.getD []
        = mergeCABundles sys
            (getUserCABundle s.proxyTrustedCAName s.userConfigMaps)
            (getCloudConfigCABundle s.cloudConfig)
    · exact ⟨(s.artifact, false),
        by simp [reconcileCycle, desiredMergedBundle, h, hc]⟩
    · exact ⟨(some (mergeCABundles sys
          (getUserCABundle s.proxyTrustedCAName s.userConfigMaps)
          (getCloudConfigCABundle s.cloudConfig)), true),
        by simp [reconcileCycle, desiredMergedBundle, h, hc]⟩
  · rfl

/-- Witness for claim C5: a proxy pointer to a nonexistent ConfigMap
resolves to Absent. -/
theorem user_source_degrades_gracefully_witness :
    getUserCABundle (some "SomewhereNowhere") [] = SourceState.absent :=
  user_source_degrades_gracefully.2.1 "SomewhereNowhere" [] rfl

/-- Claim C6: an Invalid or Absent provider source (including the case
where the cloud-config object does not exist at all) contributes nothing
and raises no error, while a Valid user source is still included: the
output is the user certificates followed by the system certificates. -/
theorem provider_invalid_absent_user_included (sys ub : Blob)
    (sysRecs uRecs : List CertificateRecord) (p : SourceState)
    (hs : certificateData sys = Except.ok sysRecs)
    (hu : certificateData ub = Except.ok uRecs)
    (hp : p = SourceState.absent ∨ ∃ r, p = SourceState.invalid r) :
    getCloudConfigCABundle none = SourceState.absent ∧
    mergeCABundles sys (SourceState.valid ub) p = ub ++ sys ∧
    certificateData (mergeCABundles sys (SourceState.valid ub) p)
      = Except.ok (uRecs ++ sysRecs) := by
  rcases (certificateData_ok_iff _ _).1 hs with ⟨hsd, hsne⟩
  rcases (certificateData_ok_iff _ _).1 hu with ⟨hud, _⟩
  have hm : mergeCABundles sys (SourceState.valid ub) p = ub ++ sys := by
    rcases hp with h | ⟨r, h⟩ <;> subst h <;> simp [mergeCABundles]
  refine ⟨rfl, hm, ?_⟩
  rw [hm]
  refine (certificateData_ok_iff _ _).2 ⟨?_, ?_⟩
  · exact decodeItems_append ub sys uRecs sysRecs hud hsd
  · simp [hsne]

/-- Witness for claim C6 at the fixtures: user = Amazon, provider absent,
system = two GlobalSign certificates. -/
theorem provider_invalid_absent_user_included_witness :
    getCloudConfigCABundle none = SourceState.absent ∧
    mergeCABundles systemBlob (SourceState.valid amazonBlob) SourceState.absent
      = amazonBlob ++ systemBlob ∧
    certificateData
        (mergeCABundles systemBlob (SourceState.valid amazonBlob)
          SourceState.absent)
      = Except.ok [⟨"Amazon", "amazonBody"⟩, ⟨"GlobalSign", "gsBodyOne"⟩,
          ⟨"GlobalSign", "gsBodyTwo"⟩] :=
  provider_invalid_absent_user_included systemBlob amazonBlob
    [⟨"GlobalSign", "gsBodyOne"⟩, ⟨"GlobalSign", "gsBodyTwo"⟩]
    [⟨"Amazon", "amazonBody"⟩] SourceState.absent rfl rfl (Or.inl rfl)

theorem getSystemTrustBundle_ok_ne_nil (fr : Except String Blob) (sys : Blob)
    (h : getSystemTrustBundle fr = Except.ok sys) : sys ≠ [] := by
  cases fr with
  | error m => simp [getSystemTrustBundle] at h
  | ok b =>
    cases hcd : certificateData b with
    | error m => simp [getSystemTrustBundle, hcd] at h
    | ok recs =>
      simp [getSystemTrustBundle, hcd] at h
      subst h
      rcases (certificateData_ok_iff b recs).1 hcd with ⟨hd, hne⟩
      intro hnil
      subst hnil
      simp [decodeItems] at hd
      exact hne hd

theorem desiredMergedBundle_ignores_artifact (s : EngineState) (a : Option Blob) :
    desiredMergedBundle { s with artifact := a } = desiredMergedBundle s := rfl

/-- Claim C3: when the system source is unreadable or unparseable, the
cycle fails with an error (an I/O failure verbatim, a parse failure as
"failed to parse certificate PEM"), no write occurs and the previous
artifact content is left untouched. -/
theorem system_failure_aborts_cycle (s : EngineState) (e : String)
    (h : getSystemTrustBundle s.systemFile = Except.error e) :
    reconcileCycle s = Except.error e ∧
    applyCycle s = s ∧
    (∀ msg, s.systemFile = Except.error msg → e = msg) ∧
    (∀ b, s.systemFile = Except.ok b → e = "failed to parse certificate PEM") := by
  have hc : reconcileCycle s = Except.error e := by
    simp [reconcileCycle, desiredMergedBundle, h]
  refine ⟨hc, by simp [applyCycle, hc], ?_, ?_⟩
  · intro msg hm
    rw [hm] at h
    simp [getSystemTrustBundle] at h
    exact h.symm
  · intro b hb
    rw [hb] at h
    cases hcd : certificateData b with
    | ok recs => simp [getSystemTrustBundle, hcd] at h
    | error m =>
      simp [getSystemTrustBundle, hcd] at h
      exact h.symm

/-- Witness for claim C3 at the broken-path fixture state. -/
theorem system_failure_aborts_cycle_witness :
    reconcileCycle brokenSystemState
      = Except.error "open /broken/ca/path.pem: no such file or directory" ∧
    applyCycle brokenSystemState = brokenSystemState :=
  ⟨(system_failure_aborts_cycle brokenSystemState
      "open /broken/ca/path.pem: no such file or directory" rfl).1,
   (system_failure_aborts_cycle brokenSystemState
      "open /broken/ca/path.pem: no such file or directory" rfl).2.1⟩

/-- Claim C4: with the sources unchanged, whatever the artifact holds
(deleted, i.e. none, or mutated to arbitrary bytes), one reconciliation
cycle leaves the artifact at exactly the deterministic merge of the
sources. -/
theorem artifact_self_healing (s : EngineState) (sys : Blob)
    (h : getSystemTrustBundle s.systemFile = Except.ok sys) :
    ∀ a : Option Blob,
      (applyCycle { s with artifact := a }).artifact
        = some (mergeCABundles sys
            (getUserCABundle s.proxyTrustedCAName s.userConfigMaps)
            (getCloudConfigCABundle s.cloudConfig)) := by
  intro a
  have hne : mergeCABundles sys
      (getUserCABundle s.proxyTrustedCAName s.userConfigMaps)
      (getCloudConfigCABundle s.cloudConfig) ≠ [] := by
    intro hx
    rcases List.append_eq_nil.1 hx with ⟨hx1, hx2⟩
    exact getSystemTrustBundle_ok_ne_nil s.systemFile sys h hx2
  by_cases hc : a.getD []
      = mergeCABundles sys
          (getUserCABundle s.proxyTrustedCAName s.userConfigMaps)
          (getCloudConfigCABundle s.cloudConfig)
  · cases a with
    | none => exact absurd hc.symm hne
    | some x =>
      simp only [Option.getD] at hc
      subst hc
      simp [applyCycle, reconcileCycle, desiredMergedBundle, h]
  · simp [applyCycle, reconcileCycle, desiredMergedBundle, h, hc]

/-- Witness for claim C4: with the artifact mutated to the garbage content
the test writes, one cycle restores the merge of the unchanged sources. -/
theorem artifact_self_healing_witness :
    (applyCycle { testClusterState with artifact := some [PemItem.junk "KEKEKE"] }).artifact
      = some (mergeCABundles systemBlob
          (getUserCABundle testClusterState.proxyTrustedCAName
            testClusterState.userConfigMaps)
          (getCloudConfigCABundle testClusterState.cloudConfig)) :=
  artifact_self_healing testClusterState systemBlob rfl
    (some [PemItem.junk "KEKEKE"])

/-- Claim C7: when the serialized merge equals the artifact content the
cycle performs no write and ends successfully, and a cycle run after a
cycle with unchanged sources performs no second write and leaves the
artifact unchanged. -/
theorem reconcile_idempotent (s : EngineState) (merged : Blob)
    (h : desiredMergedBundle s = Except.ok merged) :
    (s.artifact.getD [] = merged →
       reconcileCycle s = Except.ok (s.artifact, false) ∧ applyCycle s = s) ∧
    reconcileCycle (applyCycle s) = Except.ok ((applyCycle s).artifact, false) ∧
    applyCycle (applyCycle s) = applyCycle s := by
  have hnwr : ∀ t : EngineState, desiredMergedBundle t = Except.ok merged →
      t.artifact.getD [] = merged →
      reconcileCycle t = Except.ok (t.artifact, false) ∧ applyCycle t = t := by
    intro t ht hc
    have hr : reconcileCycle t = Except.ok (t.artifact, false) := by
      simp [reconcileCycle, ht, hc]
    exact ⟨hr, by simp [applyCycle, hr]⟩
  refine ⟨fun hc => hnwr s h hc, ?_⟩
  by_cases hc : s.artifact.getD [] = merged
  · rcases hnwr s h hc with ⟨hr, ha⟩
    rw [ha]
    exact ⟨hr, ha⟩
  · have hr : reconcileCycle s = Except.ok (some merged, true) := by
      simp [reconcileCycle, h, hc]
    have ha : applyCycle s = { s with artifact := some merged } := by
      simp [applyCycle, hr]
    have h2 : desiredMergedBundle (applyCycle s) = Except.ok merged := by
      rw [ha]
      exact (desiredMergedBundle_ignores_artifact s (some merged)).trans h
    have hc2 : (applyCycle s).artifact.getD [] = merged := by
      rw [ha]
      rfl
    exact hnwr (applyCycle s) h2 hc2

/-- Witness for claim C7 at the system-only fixture state. -/
theorem reconcile_idempotent_witness :
    reconcileCycle (applyCycle steadySystemState)
      = Except.ok ((applyCycle steadySystemState).artifact, false) ∧
    applyCycle (applyCycle steadySystemState) = applyCycle steadySystemState :=
  (reconcile_idempotent steadySystemState systemBlob rfl).2

theorem patched_not_in_availablePath (env : ReconcileEnv) (i : Nat) :
    OpAction.patched i ∉ (availablePath env).2 := by
  cases h : env.setAvailable <;> simp [availablePath, h]

theorem patched_not_in_degradedPath_nil (env : ReconcileEnv) (msg : String)
    (i : Nat) : OpAction.patched i ∉ (degradedPath env msg []).2 := by
  cases h : env.setDegraded <;> simp [degradedPath, h]

/-- Claim C9: Reconcile deploys operand resources only when the
FeatureGate "cluster" exists, the Infrastructure object exists and the
external cloud provider is enabled; in each skip case (FeatureGate
missing, Infrastructure missing, external cloud provider disabled) it sets
the operator status Available and returns success without deploying
anything. -/
theorem reconcile_applies_only_when_enabled (env : ReconcileEnv) :
    (∀ i, OpAction.patched i ∈ (Reconcile env).2 →
       env.featureGate = GetResult.ok () ∧ env.infra = GetResult.ok ()
         ∧ env.isExternal = Except.ok true) ∧
    (env.setAvailable = Except.ok () →
       (env.featureGate = GetResult.notFound
         ∨ (env.featureGate = GetResult.ok () ∧ env.infra = GetResult.notFound)
         ∨ (env.featureGate = GetResult.ok () ∧ env.infra = GetResult.ok ()
            ∧ (∀ m, env.proxy ≠ GetResult.err m)
            ∧ env.isExternal = Except.ok false)) →
       Reconcile env = (none, [OpAction.statusAvailable])) := by
  constructor
  · intro i hmem
    cases hfg : env.featureGate with
    | notFound =>
      rw [Reconcile, hfg] at hmem
      exact absurd hmem (patched_not_in_availablePath env i)
    | err m =>
      rw [Reconcile, hfg] at hmem
      exact absurd hmem (patched_not_in_degradedPath_nil env m i)
    | ok u =>
      cases u
      cases hin : env.infra with
      | notFound =>
        rw [Reconcile, hfg, hin] at hmem
        exact absurd hmem (patched_not_in_availablePath env i)
      | err m =>
        rw [Reconcile, hfg, hin] at hmem
        exact absurd hmem (patched_not_in_degradedPath_nil env m i)
      | ok u2 =>
        cases u2
        cases hext : env.isExternal with
        | error m =>
          cases hpx : env.proxy with
          | err m2 =>
            rw [Reconcile, hfg, hin, hpx] at hmem
            exact absurd hmem (patched_not_in_degradedPath_nil env m2 i)
          | ok v =>
            rw [Reconcile, hfg, hin, hpx, hext] at hmem
            exact absurd hmem (patched_not_in_degradedPath_nil env m i)
          | notFound =>
            rw [Reconcile, hfg, hin, hpx, hext] at hmem
            exact absurd hmem (patched_not_in_degradedPath_nil env m i)
        | ok b =>
          cases b with
          | false =>
            cases hpx : env.proxy with
            | err m2 =>
              rw [Reconcile, hfg, hin, hpx] at hmem
              exact absurd hmem (patched_not_in_degradedPath_nil env m2 i)
            | ok v =>
              rw [Reconcile, hfg, hin, hpx, hext] at hmem
              exact absurd hmem (patched_not_in_availablePath env i)
            | notFound =>
              rw [Reconcile, hfg, hin, hpx, hext] at hmem
              exact absurd hmem (patched_not_in_availablePath env i)
          | true =>
            cases hpx : env.proxy with
            | err m2 =>
              rw [Reconcile, hfg, hin, hpx] at hmem
              exact absurd hmem (patched_not_in_degradedPath_nil env m2 i)
            | ok v => exact ⟨rfl, rfl, rfl⟩
            | notFound => exact ⟨rfl, rfl, rfl⟩
  · intro hsa hskip
    rcases hskip with hfg | ⟨hfg, hin⟩ | ⟨hfg, hin, hpx, hext⟩
    · rw [Reconcile, hfg]
      simp [availablePath, hsa]
    · rw [Reconcile, hfg, hin]
      simp [availablePath, hsa]
    · cases hp : env.proxy with
      | err m => exact absurd hp (hpx m)
      | ok v =>
        rw [Reconcile, hfg, hin, hp, hext]
        simp [availablePath, hsa]
      | notFound =>
        rw [Reconcile, hfg, hin, hp, hext]
        simp [availablePath, hsa]

/-- Witness for claim C9: with the FeatureGate missing, Reconcile only
sets the status Available and returns success. -/
theorem reconcile_applies_only_when_enabled_witness :
    Reconcile skipEnv = (none, [OpAction.statusAvailable]) :=
  (reconcile_applies_only_when_enabled skipEnv).2 rfl (Or.inl rfl)

theorem applyGo_success (rs : List ResourceEnv) :
    ∀ i updated, (∀ x ∈ rs, resourceFailure x = none) →
      (applyGo i updated rs).1 = (updated || rs.any resourceProgress, none) := by
  induction rs with
  | nil => intro i u _; simp [applyGo]
  | cons r rest ih =>
    intro i u h
    have hr := h r (by simp)
    have hrest : ∀ x ∈ rest, resourceFailure x = none :=
      fun x hx => h x (by simp [hx])
    cases hg : r.get with
    | err m => simp [resourceFailure, hg] at hr
    | notFound =>
      cases hpt : r.patch with
      | error m => simp [resourceFailure, hg, hpt] at hr
      | ok ng =>
        cases hw : r.watch with
        | error m => simp [resourceFailure, hg, hpt, hw] at hr
        | ok _ =>
          simp [applyGo, getOutcome, hg, hpt, hw, ih (i + 1) _ hrest,
            resourceProgress]
    | ok g =>
      cases hpt : r.patch with
      | error m => simp [resourceFailure, hg, hpt] at hr
      | ok ng =>
        cases hw : r.watch with
        | error m => simp [resourceFailure, hg, hpt, hw] at hr
        | ok _ =>
          simp [applyGo, getOutcome, hg, hpt, hw, ih (i + 1) _ hrest,
            resourceProgress, Bool.or_assoc]

theorem applyGo_first_failure (pre : List ResourceEnv) :
    ∀ i updated r post msg, (∀ x ∈ pre, resourceFailure x = none) →
      resourceFailure r = some msg →
      (applyGo i updated (pre ++ r :: post)).1 = (false, some msg) ∧
      (∀ j, OpAction.patched j ∈ (applyGo i updated (pre ++ r :: post)).2 →
         j ≤ i + pre.length) := by
  induction pre with
  | nil =>
    intro i updated r post msg _ hr
    cases hg : r.get with
    | err m =>
      simp [resourceFailure, hg] at hr
      subst hr
      simp [applyGo, getOutcome, hg]
    | notFound =>
      cases hpt : r.patch with
      | error m =>
        simp [resourceFailure, hg, hpt] at hr
        subst hr
        simp [applyGo, getOutcome, hg, hpt]
      | ok ng =>
        cases hw : r.watch with
        | error m =>
          simp [resourceFailure, hg, hpt, hw] at hr
          subst hr
          simp [applyGo, getOutcome, hg, hpt, hw]
        | ok _ => simp [resourceFailure, hg, hpt, hw] at hr
    | ok g =>
      cases hpt : r.patch with
      | error m =>
        simp [resourceFailure, hg, hpt] at hr
        subst hr
        simp [applyGo, getOutcome, hg, hpt]
      | ok ng =>
        cases hw : r.watch with
        | error m =>
          simp [resourceFailure, hg, hpt, hw] at hr
          subst hr
          simp [applyGo, getOutcome, hg, hpt, hw]
        | ok _ => simp [resourceFailure, hg, hpt, hw] at hr
  | cons p rest ih =>
    intro i updated r post msg hpre hr
    have hp : resourceFailure p = none := hpre p (by simp)
    have hrest : ∀ x ∈ rest, resourceFailure x = none :=
      fun x hx => hpre x (by simp [hx])
    cases hg : p.get with
    | err m => simp [resourceFailure, hg] at hp
    | notFound =>
      cases hpt : p.patch with
      | error m => simp [resourceFailure, hg, hpt] at hp
      | ok ng =>
        cases hw : p.watch with
        | error m => simp [resourceFailure, hg, hpt, hw] at hp
        | ok _ =>
          rcases ih (i + 1) (true || decide (p.desiredGen ≠ ng)) r post msg
              hrest hr with ⟨h1, h2⟩
          constructor
          · simpa [applyGo, getOutcome, hg, hpt, hw] using h1
          · intro j hj
            simp [applyGo, getOutcome, hg, hpt, hw] at hj
            rcases hj with hj | hj
            · subst hj; omega
            · have := h2 j (by simpa using hj)
              simp [List.length_cons] at this ⊢
              omega
    | ok g =>
      cases hpt : p.patch with
      | error m => simp [resourceFailure, hg, hpt] at hp
      | ok ng =>
        cases hw : p.watch with
        | error m => simp [resourceFailure, hg, hpt, hw] at hp
        | ok _ =>
          rcases ih (i + 1) (updated || decide (g ≠ ng)) r post msg
              hrest hr with ⟨h1, h2⟩
          constructor
          · simpa [applyGo, getOutcome, hg, hpt, hw] using h1
          · intro j hj
            simp [applyGo, getOutcome, hg, hpt, hw] at hj
            rcases hj with hj | hj
            · subst hj; omega
            · have := h2 j (by simpa using hj)
              simp [List.length_cons] at this ⊢
              omega

theorem applyGo_updated_origin (rs : List ResourceEnv) :
    ∀ i u, (applyGo i u rs).1.1 = true →
      u = true ∨ ∃ r ∈ rs, resourceProgress r = true := by
  induction rs with
  | nil => intro i u h; simp [applyGo] at h; exact Or.inl h
  | cons r rest ih =>
    intro i u h
    cases hg : r.get with
    | err m => simp [applyGo, getOutcome, hg] at h
    | notFound =>
      exact Or.inr ⟨r, by simp, by simp [resourceProgress, hg]⟩
    | ok g =>
      cases hpt : r.patch with
      | error m => simp [applyGo, getOutcome, hg, hpt] at h
      | ok ng =>
        cases hw : r.watch with
        | error m => simp [applyGo, getOutcome, hg, hpt, hw] at h
        | ok _ =>
          simp only [applyGo, getOutcome, hg, hpt, hw] at h
          rcases ih (i + 1) (u || decide (g ≠ ng)) h with h2 | ⟨x, hx, hpx⟩
          · rcases Bool.or_eq_true_iff.1 h2 with h3 | h3
            · exact Or.inl h3
            · refine Or.inr ⟨r, by simp, ?_⟩
              simp [resourceProgress, hg, hpt]
              exact of_decide_eq_true h3
          · exact Or.inr ⟨x, by simp [hx], hpx⟩

theorem resourceProgress_characterization (r : ResourceEnv)
    (h : resourceProgress r = true) :
    r.get = GetResult.notFound ∨
      ∃ g ng, r.get = GetResult.ok g ∧ r.patch = Except.ok ng ∧ g ≠ ng := by
  cases hg : r.get with
  | notFound => exact Or.inl rfl
  | err m => simp [resourceProgress, hg] at h
  | ok g =>
    cases hpt : r.patch with
    | error m => simp [resourceProgress, hg, hpt] at h
    | ok ng =>
      simp [resourceProgress, hg, hpt] at h
      exact Or.inr ⟨g, ng, rfl, rfl, h⟩

/-- Claim C10: applyResources processes the resource list in order; at the
first resource whose pre-apply Get fails with a non-IsNotFound error, or
whose apply patch or watch establishment fails, it returns that error
immediately with updated = false and patches no later resource; and it
returns updated = true only when some resource was newly created
(IsNotFound on the pre-apply Get) or had its generation changed by the
patch, which under generation monotonicity means increased. -/
theorem applyResources_spec (rs : List ResourceEnv) :
    (∀ pre r post msg, rs = pre ++ r :: post →
       (∀ x ∈ pre, resourceFailure x = none) →
       resourceFailure r = some msg →
       (applyResources rs).1 = (false, some msg) ∧
       ∀ j, OpAction.patched j ∈ (applyResources rs).2 → j ≤ pre.length) ∧
    ((∀ x ∈ rs, resourceFailure x = none) →
       (applyResources rs).1 = (rs.any resourceProgress, none)) ∧
    ((applyResources rs).1.1 = true →
       ∃ r ∈ rs, r.get = GetResult.notFound ∨
         ∃ g ng, r.get = GetResult.ok g ∧ r.patch = Except.ok ng ∧ g ≠ ng) ∧
    ((∀ x ∈ rs, ∀ g ng, x.get = GetResult.ok g → x.patch = Except.ok ng →
        g ≤ ng) →
       (applyResources rs).1.1 = true →
       ∃ r ∈ rs, r.get = GetResult.notFound ∨
         ∃ g ng, r.get = GetResult.ok g ∧ r.patch = Except.ok ng ∧ g < ng) := by
  refine ⟨?_, ?_, ?_, ?_⟩
  · intro pre r post msg hsplit hpre hr
    subst hsplit
    have := applyGo_first_failure pre 0 false r post msg hpre hr
    simpa [applyResources] using this
  · intro h
    simpa [applyResources] using applyGo_success rs 0 false h
  · intro h
    rcases applyGo_updated_origin rs 0 false h with h2 | ⟨r, hm, hp⟩
    · simp at h2
    · exact ⟨r, hm, resourceProgress_characterization r hp⟩
  · intro hmono h
    rcases applyGo_updated_origin rs 0 false h with h2 | ⟨r, hm, hp⟩
    · simp at h2
    · rcases resourceProgress_characterization r hp with hnf | ⟨g, ng, hg, hpt, hne⟩
      · exact ⟨r, hm, Or.inl hnf⟩
      · have hle := hmono r hm g ng hg hpt
        exact ⟨r, hm, Or.inr ⟨g, ng, hg, hpt, lt_of_le_of_ne hle hne⟩⟩

/-- Witness for claim C10 at the fixture list: the patch failure of the
second resource is returned with updated = false and the third resource is
never patched. -/
theorem applyResources_spec_witness :
    (applyResources failingResources).1 = (false, some "apply failed") ∧
    ∀ j, OpAction.patched j ∈ (applyResources failingResources).2 → j ≤ 1 :=
  (applyResources_spec failingResources).1
    [{ get := GetResult.ok 1, desiredGen := 0,
       patch := Except.ok 1, watch := Except.ok () }]
    { get := GetResult.notFound, desiredGen := 0,
      patch := Except.error "apply failed", watch := Except.ok () }
    [{ get := GetResult.ok 5, desiredGen := 0,
       patch := Except.ok 6, watch := Except.ok () }]
    "apply failed" rfl (by decide) rfl
